import Mathlib

/-!
Verification development for the `turtle-world` Logo interpreter
(`src/logo.js`).  The JavaScript source is shallowly embedded: JS values
become the inductive `Value`, the tokenizer and parser state machines become
fuel-free recursive functions over character and token lists, and the
mutable `Interpreter` object (scope heap, scope stack, context stack, run
flags) becomes the explicit state record `S` threaded through a fuel-indexed
evaluator.  JS `number` (IEEE float64) is idealized as `ℚ`; every numeric
literal exercised below is small and exactly representable, and no `NaN` or
overflow behaviour is relied upon.
-/

/-- Tags naming the native (builtin) procedures modelled here.  These are the
builtins from the `builtins` table of `logo.js` that the verified claims
exercise (`true`, `false`, `make`, `to`, `if`, `ifelse`, `stop`, `output`),
plus the two arity-1 native test commands `testcmd` and `testout` that the
repository's test harness binds into the global scope (`test.js` binds
`testout` which records its argument, and `testcmd` which does nothing).
The remaining builtins (list selectors, arithmetic, …) are not referenced by
any claim and are omitted from the model. -/
inductive NTag where
  | btrue | bfalse | makeTag | toTag | ifTag | ifelseTag | stopTag | outputTag
  | testcmd | testout
deriving DecidableEq, Repr

/-- A JS value as seen by the Logo interpreter (`LogoValue` in `logo.js`):
numbers, strings, booleans, `List` records, and functions.  The single
canonical empty list `List.empty` is `nil`; a non-empty `List` record with
`head` and `tail` is `cons` (the tail is a list by construction).  Functions
are defunctionalized: `native` is a builtin from the `builtins` table and
`closure` is the wrapper produced by `Interpreter.procedure` for a
user-defined procedure (carrying the name, parameter names, body list and
the id of the defining scope).  The `id` field of `closure` is a unique
creation counter; it models JS reference identity of the closure object, so
`=` on `Value` models JS `===`. -/
inductive Value where
  | num (q : ℚ)
  | str (s : String)
  | bool (b : Bool)
  | nil
  | cons (h t : Value)
  | native (tag : NTag)
  | closure (id : ℕ) (name : String) (params : List String) (body : Value) (parent : ℕ)
deriving DecidableEq, Repr

namespace Value

/-- JS `isList`: the value is a `List` instance (the empty list or a record). -/
def isList : Value → Bool
  | .nil => true
  | .cons _ _ => true
  | _ => false

/-- JS `isAtom` from `logo.js`: function, string, number, or boolean. -/
def isAtom : Value → Bool
  | .num _ => true
  | .str _ => true
  | .bool _ => true
  | .native _ => true
  | .closure _ _ _ _ _ => true
  | _ => false

/-- Build a Logo list value from a Lean list of element values (what
`List.from` / a `ListBuilder` produces for those elements). -/
def ofList : List Value → Value
  | [] => .nil
  | v :: vs => .cons v (ofList vs)

/-- The `count()` method of `List`: number of records traversed before the
canonical empty node is reached.  On atoms the iteration never starts. -/
def llength : Value → ℕ
  | .cons _ t => 1 + llength t
  | _ => 0

/-- `List.equal(a, b)` from `logo.js`:

```js
static equal(a, b) {
    if (a === b) { return true; }
    if (!isList(a) || !isList(b)) { return false; }
    if (!List.equal(a.head, b.head)) { return false; }
    return List.equal(a.tail, b.tail);
}
```

`=` on `Value` models `===` (value equality for primitives, identity for
functions via the `id` field, and — soundly, since published lists are
immutable — identity implies structural equality for lists).  Crucially the
canonical empty list's `head` and `tail` are the empty list itself
(`List.empty.head === List.empty`), so the recursion for `a = nil`,
`b = cons hb tb` compares `nil` against `hb` and `tb`. -/
def lequal : Value → Value → Bool
  | a, b =>
    if a = b then true
    else
      match a, b with
      | .nil, .cons hb tb => lequal .nil hb && lequal .nil tb
      | .cons ha ta, .nil => lequal ha .nil && lequal ta .nil
      | .cons ha ta, .cons hb tb => lequal ha hb && lequal ta tb
      | _, _ => false
termination_by a b => sizeOf a + sizeOf b

/-- A proper list all of whose elements are atoms (no nested lists). -/
def flatList : Value → Bool
  | .nil => true
  | .cons h t => isAtom h && flatList t
  | _ => false

end Value

/-- The JS exception classes thrown by `logo.js`, by constructor:
`SyntaxError` (structural errors), `TypeError`, `ReferenceError`, and plain
`Error` (used for the tokenizer state machine, `Break requested`, and the
interpreter-level usage errors of `execute`/`pause`/`continue`/`break`).
`fuelErr` is an artifact of the fuel-indexed embedding and never occurs in
any theorem below at sufficient fuel. -/
inductive Err where
  | syntaxErr (msg : String)
  | typeErr (msg : String)
  | refErr (msg : String)
  | plainErr (msg : String)
  | fuelErr
deriving DecidableEq, Repr

/-- An activation record (`Context` in `logo.js`): optional output value and
a stop flag.  `output : none` models the JS field holding `undefined`. -/
structure Ctx where
  output : Option Value
  stop : Bool
deriving DecidableEq, Repr

/-- One `Scope` object: its parent link and its own-property bindings.  A
binding's stored value is an `Option Value` because a JS `Binding` cell can
hold `undefined`.  The prototype-chain lookup of `Scope.getBinding` walks
`parent` links; property assignment always hits the own frame. -/
structure ScopeRec where
  parent : Option ℕ
  binds : List (String × Option Value)
deriving DecidableEq, Repr

/-- The mutable state of an `Interpreter` object: the heap of `Scope`
objects (index = identity; `0` is `globalScope`), the `scopes` and
`contexts` stacks (head = innermost, i.e. the JS array's last element), the
`running`/`breakFlag`/`paused` flags, the presence of the `oncontinue` and
`onbreak` callbacks (modelled as booleans: registered or `null`), the
creation counter for closure identities, and `testoutVal`, the value last
recorded by the test harness's `testout` command. -/
structure S where
  heap : List ScopeRec
  scopeStack : List ℕ
  ctxStack : List Ctx
  running : Bool
  breakFlag : Bool
  paused : Bool
  oncontinue : Bool
  onbreak : Bool
  nextId : ℕ
  testoutVal : Option Value
deriving DecidableEq, Repr

/-- `Interpreter.currentScope()`: the top of the scope stack (defaulting to
the global scope; the stack is never empty in any reachable state). -/
def currentSid (s : S) : ℕ := s.scopeStack.headD 0

/-- Set or replace a property in one frame's own bindings (JS
`this.bindings[name] = binding` on an own object). -/
def setLocal : List (String × Option Value) → String → Option Value → List (String × Option Value)
  | [], n, v => [(n, v)]
  | (m, w) :: rest, n, v =>
    if m = n then (n, v) :: rest else (m, w) :: setLocal rest n v

/-- Prototype-chain lookup (`Scope.getBinding`): find the nearest frame in
the parent chain that has an own binding for `name`; return its scope id and
the stored value.  `fuelN` bounds the chain walk (the heap length suffices
for the acyclic chains the interpreter builds). -/
def lookupChain (heap : List ScopeRec) : ℕ → ℕ → String → Option (ℕ × Option Value)
  | 0, _, _ => none
  | fuelN + 1, sid, name =>
    match heap.get? sid with
    | none => none
    | some r =>
      match r.binds.find? (fun p => p.1 = name) with
      | some p => some (sid, p.2)
      | none =>
        match r.parent with
        | none => none
        | some p => lookupChain heap fuelN p name

/-- `this.currentScope().getBinding(name)` for the current state. -/
def scopeGetBinding (s : S) (name : String) : Option (ℕ × Option Value) :=
  lookupChain s.heap (s.heap.length + 1) (currentSid s) name

/-- Update the heap record of scope `sid` by replacing its binding for
`name` (property assignment on that frame). -/
def heapBind (heap : List ScopeRec) (sid : ℕ) (name : String) (v : Option Value) : List ScopeRec :=
  match heap.get? sid with
  | none => heap
  | some r => heap.set sid { r with binds := setLocal r.binds name v }

/-- `Scope.bindValue` on the current scope: create/replace a binding in the
local frame, shadowing any outer binding. -/
def bindValueCur (name : String) (v : Option Value) (s : S) : S :=
  { s with heap := heapBind s.heap (currentSid s) name v }

/-- `Scope.set(name, val)` on the current scope:

```js
set(name, val) {
    let binding = this.getBinding(name);
    if (binding) { binding.value = val; }
    else { this.bindValue(name, val); }
}
```

If a binding is visible anywhere in the chain, mutate it in the frame that
owns it; otherwise create the binding in the *current* frame. -/
def scopeSet (name : String) (v : Option Value) (s : S) : S :=
  match scopeGetBinding s name with
  | some (owner, _) => { s with heap := heapBind s.heap owner name v }
  | none => bindValueCur name v s

/-- Replace the current (innermost) context by `f` of it — how the `stop`
and `output` builtins mutate `this.currentContext()`. -/
def setCtxHead (f : Ctx → Ctx) (s : S) : S :=
  { s with ctxStack := match s.ctxStack with
      | [] => []
      | c :: rest => f c :: rest }

/-- JS regex `[ \t\n\r]` (`reSpace`). -/
def isSpaceCh (c : Char) : Bool := c = ' ' || c = '\t' || c = '\n' || c = '\r'

/-- JS regex `[\n\r]` (`reNewline`). -/
def isNewlineCh (c : Char) : Bool := c = '\n' || c = '\r'

/-- JS regex `[0-9]` (`reDigit`). -/
def isDigitCh (c : Char) : Bool := '0' ≤ c && c ≤ '9'

/-- JS regex `[\w_]` (`reWordStart`): ASCII letters, digits, underscore.
Note that digits are word-start characters, which is why positive numeric
tokens are lexed in the `word` state. -/
def isWordStartCh (c : Char) : Bool :=
  ('a' ≤ c && c ≤ 'z') || ('A' ≤ c && c ≤ 'Z') || isDigitCh c || c = '_'

/-- JS regex `[\w_-]` (`reWord`): word-start characters plus hyphen. -/
def isWordCh (c : Char) : Bool := isWordStartCh c || c = '-'

/-- JS regex `[-\+]` (`reSign`). -/
def isSignCh (c : Char) : Bool := c = '-' || c = '+'

/-- `isWord(token)` from `logo.js`: `isString(token) && token.match(reWord)`
with `reWord = /^\w[\w\d_-]*/`.  Since the Kleene star may match the empty
string, the regex succeeds exactly when the first character is a word-start
character. -/
def isWordStr (s : String) : Bool :=
  match s.data with
  | [] => false
  | c :: _ => isWordStartCh c

/-- The states of the `tokenize` character state machine. -/
inductive TState where
  | tstart | tcomment | tstring | tstringEscape | tword
  | tnumberSign | tnumberDigit | tnumberDot | tnumberFraction
  | tnumberExponent | tnumberExponentSign | tnumberExponentDigit
deriving DecidableEq, Repr

/-- The state names used in the `StateMachine` error messages. -/
def tstateName : TState → String
  | .tstart => "start"
  | .tcomment => "comment"
  | .tstring => "string"
  | .tstringEscape => "stringEscape"
  | .tword => "word"
  | .tnumberSign => "numberSign"
  | .tnumberDigit => "numberDigit"
  | .tnumberDot => "numberDot"
  | .tnumberFraction => "numberFraction"
  | .tnumberExponent => "numberExponent"
  | .tnumberExponentSign => "numberExponentSign"
  | .tnumberExponentDigit => "numberExponentDigit"

/-- The plain `Error` thrown by `StateMachine.run` when a handler returns no
next state: `'Unexpected input ' + item + ' in state ' + this.state`. -/
def unexpectedInput (c : Char) (st : TState) : Err :=
  .plainErr ("Unexpected input " ++ String.singleton c ++ " in state " ++ tstateName st)

/-- One step of the `tokenize` state machine on a present character:
each arm is the corresponding handler from `Interpreter.tokenize`, with the
checks in source order.  Result: next state, current token accumulator, and
tokens pushed so far.  A handler that falls through (returns no state) is
the `Unexpected input` error.  Note the `start` handler tests `reWordStart`
before `reSign`/`reDigit`, so digits enter the `word` state, and nothing in
the `start` handler matches the operator characters `*` `/` `<` `>` `=` or
a bare `+` followed by non-digit — infix operator tokens do not exist in
this revision of the tokenizer. -/
def tokStep (st : TState) (tok : String) (acc : List String) (c : Char) :
    Except Err (TState × String × List String) :=
  match st with
  | .tstart =>
    if isSpaceCh c then .ok (.tstart, tok, acc)
    else if c = ';' then .ok (.tcomment, tok, acc)
    else if c = '"' then .ok (.tstring, String.singleton c, acc)
    else if c = ':' then .ok (.tword, String.singleton c, acc)
    else if isWordStartCh c then .ok (.tword, String.singleton c, acc)
    else if isSignCh c then .ok (.tnumberSign, String.singleton c, acc)
    else if isDigitCh c then .ok (.tnumberDigit, String.singleton c, acc)
    else if c = '(' || c = ')' || c = '[' || c = ']' then
      .ok (.tstart, tok, acc ++ [String.singleton c])
    else .error (unexpectedInput c .tstart)
  | .tcomment =>
    if isNewlineCh c then .ok (.tstart, tok, acc) else .ok (.tcomment, tok, acc)
  | .tstring =>
    if c = '"' then .ok (.tstart, "", acc ++ [tok])
    else if c = '\\' then .ok (.tstringEscape, tok, acc)
    else .ok (.tstring, tok.push c, acc)
  | .tstringEscape =>
    if c = '"' || c = '\\' then .ok (.tstring, tok.push c, acc)
    else .error (unexpectedInput c .tstringEscape)
  | .tword =>
    if c = '(' || c = ')' || c = '[' || c = ']' then
      -- push token, then delegate to the start handler (which pushes the bracket)
      .ok (.tstart, "", acc ++ [tok] ++ [String.singleton c])
    else if isNewlineCh c then .ok (.tstart, "", acc ++ [tok])
    else if isSpaceCh c then .ok (.tstart, "", acc ++ [tok])
    else if isWordCh c then .ok (.tword, tok.push c, acc)
    else .error (unexpectedInput c .tword)
  | .tnumberSign =>
    if isDigitCh c then .ok (.tnumberDigit, tok.push c, acc)
    else .error (unexpectedInput c .tnumberSign)
  | .tnumberDigit =>
    if isSpaceCh c then .ok (.tstart, "", acc ++ [tok])
    else if isDigitCh c then .ok (.tnumberDigit, tok.push c, acc)
    else if c = '.' then .ok (.tnumberDot, tok.push c, acc)
    else if c = 'e' then .ok (.tnumberExponent, tok.push c, acc)
    else .error (unexpectedInput c .tnumberDigit)
  | .tnumberDot =>
    if isDigitCh c then .ok (.tnumberFraction, tok.push c, acc)
    else .error (unexpectedInput c .tnumberDot)
  | .tnumberFraction =>
    if isDigitCh c then .ok (.tnumberFraction, tok.push c, acc)
    else if c = 'e' then .ok (.tnumberExponent, tok.push c, acc)
    else .error (unexpectedInput c .tnumberFraction)
  | .tnumberExponent =>
    if isSignCh c then .ok (.tnumberExponentSign, tok.push c, acc)
    else .error (unexpectedInput c .tnumberExponent)
  | .tnumberExponentSign =>
    if isDigitCh c then .ok (.tnumberExponentDigit, tok.push c, acc)
    else .error (unexpectedInput c .tnumberExponentSign)
  | .tnumberExponentDigit =>
    if isSpaceCh c then .ok (.tstart, "", acc ++ [tok])
    else if isDigitCh c then .ok (.tnumberExponentDigit, tok.push c, acc)
    else .error (unexpectedInput c .tnumberExponentDigit)

/-- End of input: `StateMachine.run` feeds `undefined` to the final state's
handler.  Handlers guarded by `if (!char)` push the pending token and end;
the remaining handlers call `char.match(...)` on `undefined`, which is a JS
`TypeError` (e.g. an unterminated string literal or a dangling sign). -/
def tokFinish (st : TState) (tok : String) (acc : List String) :
    Except Err (List String) :=
  match st with
  | .tstart => .ok acc
  | .tcomment => .ok acc
  | .tword => .ok (acc ++ [tok])
  | .tnumberDigit => .ok (acc ++ [tok])
  | .tnumberExponentDigit => .ok (acc ++ [tok])
  | _ => .error (.typeErr ("Cannot read match of undefined in state " ++ tstateName st))

/-- Run the tokenizer machine over the remaining characters. -/
def tokRun : List Char → TState → String → List String → Except Err (List String)
  | [], st, tok, acc => tokFinish st tok acc
  | c :: cs, st, tok, acc =>
    match tokStep st tok acc c with
    | .error e => .error e
    | .ok (st2, tok2, acc2) => tokRun cs st2 tok2 acc2

/-- `Interpreter.tokenize(str)`: the character state machine producing the
token list (a Logo `List` of strings in JS; its element sequence here). -/
def tokenizeJS (src : String) : Except Err (List String) :=
  tokRun src.data .tstart "" []

/-- Accumulate a digit run into a natural number. -/
def digitsToNat (cs : List Char) : ℕ :=
  cs.foldl (fun n c => n * 10 + (c.toNat - '0'.toNat)) 0

/-- Ten to an integer power, as a rational. -/
def zpow10 : ℤ → ℚ
  | .ofNat n => (10 : ℚ) ^ n
  | .negSucc n => 1 / (10 : ℚ) ^ (n + 1)

/-- JS `parseFloat` restricted to what the parser feeds it: parse the
longest valid numeric prefix — optional sign, digits with an optional
fractional part (at least one digit overall), and an optional `e`/`E`
exponent that is included only when at least one exponent digit follows.
`none` models the `NaN` result when no digits are found.  (`parseFloat`'s
leading-whitespace skipping and `Infinity` handling can never trigger on
tokenizer output and are not modelled.) -/
def parseFloatQ (s : String) : Option ℚ :=
  let cs := s.data
  let sgncs : ℚ × List Char :=
    match cs with
    | '-' :: r => (-1, r)
    | '+' :: r => (1, r)
    | _ => (1, cs)
  let ip := sgncs.2.takeWhile isDigitCh
  let rest1 := sgncs.2.dropWhile isDigitCh
  let fprest : List Char × List Char :=
    match rest1 with
    | '.' :: r => (r.takeWhile isDigitCh, r.dropWhile isDigitCh)
    | _ => ([], rest1)
  let fp := fprest.1
  if ip.isEmpty && fp.isEmpty then none
  else
    let mant : ℚ := (digitsToNat ip : ℚ) + (digitsToNat fp : ℚ) / (10 : ℚ) ^ fp.length
    let expo : ℤ :=
      match fprest.2 with
      | c :: r =>
        if c = 'e' || c = 'E' then
          match r with
          | '-' :: r2 =>
            let ds := r2.takeWhile isDigitCh
            if ds.isEmpty then 0 else -(digitsToNat ds : ℤ)
          | '+' :: r2 =>
            let ds := r2.takeWhile isDigitCh
            if ds.isEmpty then 0 else (digitsToNat ds : ℤ)
          | _ =>
            let ds := r.takeWhile isDigitCh
            if ds.isEmpty then 0 else (digitsToNat ds : ℤ)
        else 0
      | [] => 0
    some (sgncs.1 * mant * zpow10 expo)

/-- The states of the `parse` token state machine. -/
inductive PTag where
  | pstart | pblock | pto | ptoArgs | ptoBlock
deriving DecidableEq, Repr

/-- The parser machine's mutable variables: the current builder contents
(`parsed`), the open-paren counter (`parens`, a plain JS number that `)`
decrements without a check), the `oldState` variable, the save-stack pushed
by `push()`, and the current machine state.  The JS frame also saves the
`sub` builder, but after `pop()` the code only ever reads `sub.list` at a
point where `sub` aliases the builder that `parsed` pointed to before the
pop, so the model takes the completed inner list directly from the `parsed`
component and drops `sub`. -/
structure PSt where
  parsed : List Value
  parens : ℤ
  old : PTag
  stack : List (List Value × ℤ × PTag)
  tag : PTag
deriving Repr

/-- `common(token, state)` from `Interpreter.parse`, for a present token.
`ret` is the `state` parameter (the state to return for the plain-push
arms); reads of `machine.state` (the `oldState` assignments) use `st.tag`,
which is the machine's current state while a handler runs.  The `to`
special form emits `(`, `to`, and switches to the `to` states; a token whose
first character matches `[0-9-]` is pushed through `parseFloat` (the
unreachable `NaN` case is modelled as 0); everything else is pushed as a
plain string. -/
def pcommon (token : String) (ret : PTag) (st : PSt) : PSt :=
  if token = "(" then
    { st with parens := st.parens + 1, parsed := st.parsed ++ [.str "("], tag := ret }
  else if token = ")" then
    { st with parens := st.parens - 1, parsed := st.parsed ++ [.str ")"], tag := ret }
  else if token = "[" then
    -- sub = new ListBuilder(); oldState = machine.state; push(); return 'block'
    { parsed := [],
      parens := 0,
      old := st.tag,
      stack := (st.parsed, st.parens, st.tag) :: st.stack,
      tag := .pblock }
  else if token = "to" then
    { st with parsed := st.parsed ++ [.str "(", .str "to"], old := st.tag, tag := .pto }
  else
    match token.data with
    | c :: _ =>
      if isDigitCh c || c = '-' then
        { st with
          parsed := st.parsed ++ [match parseFloatQ token with
            | some q => .num q
            | none => .num 0], tag := ret }
      else { st with parsed := st.parsed ++ [.str token], tag := ret }
    | [] => { st with parsed := st.parsed ++ [.str token], tag := ret }

/-- The `toBlock` handler: on `end`, capture the body list from the current
builder, `pop()`, push the body and the closing `)` into the restored
builder, and return the restored `oldState`; otherwise delegate to
`common(token, 'toBlock')`.  A `pop()` of an empty save-stack destructures
`undefined` in JS — a `TypeError`. -/
def ptoBlockStep (token : String) (st : PSt) : Except Err PSt :=
  if token = "end" then
    match st.stack with
    | [] => .error (.typeErr "cannot destructure undefined")
    | (pp, pn, po) :: r =>
      .ok
        { parsed := pp ++ [Value.ofList st.parsed, .str ")"],
          parens := pn,
          old := po,
          stack := r,
          tag := po }
  else .ok (pcommon token .ptoBlock st)

/-- One step of the `parse` machine on a present token.  The `block` handler
closes `]` (rejecting it while parens are open or no bracket is open); the
`to` handler turns the procedure name into a quoted word; `toArgs` turns
`:params` into quoted words and, on the first non-`:` token, creates the
body builder (`push()`) and delegates to the `toBlock` handler while
`machine.state` is still `toArgs` — faithfully reproducing the source's
delegation quirk. -/
def pstep (token : String) (st : PSt) : Except Err PSt :=
  match st.tag with
  | .pstart => .ok (pcommon token st.tag st)
  | .pblock =>
    if token = "]" then
      if st.parens ≠ 0 then .error (.syntaxErr "Cannot close bracket when parens are open")
      else
        match st.stack with
        | [] => .error (.syntaxErr "Cannot close non-open bracket")
        | (pp, pn, po) :: r =>
          .ok
            { parsed := pp ++ [Value.ofList st.parsed],
              parens := pn,
              old := po,
              stack := r,
              tag := po }
    else .ok (pcommon token st.tag st)
  | .pto =>
    .ok { st with parsed := st.parsed ++ [.str ("\"" ++ token)], tag := .ptoArgs }
  | .ptoArgs =>
    match token.data with
    | ':' :: restChars =>
      .ok
        { st with
          parsed := st.parsed ++ [.str ("\"" ++ String.mk restChars)],
          tag := .ptoArgs }
    | _ =>
      -- sub = new ListBuilder(); push(); return machine.handlers.toBlock(token)
      ptoBlockStep token
        { parsed := [],
          parens := 0,
          old := st.old,
          stack := (st.parsed, st.parens, st.old) :: st.stack,
          tag := st.tag }
  | .ptoBlock => ptoBlockStep token st

/-- End of input for the `parse` machine.  `start(undefined)` ends cleanly;
`block`/`toBlock` reach `common(undefined)` which throws
`SyntaxError('Out of input')`; `to(undefined)` returns `toArgs`, which
`StateMachine.run` rejects as an inconsistent final state; and
`toArgs(undefined)` indexes `undefined[0]`, a `TypeError`. -/
def pfinish (st : PSt) : Except Err (List Value) :=
  match st.tag with
  | .pstart => .ok st.parsed
  | .pblock => .error (.syntaxErr "Out of input")
  | .pto => .error (.plainErr "Ended in inconsistent state toArgs")
  | .ptoArgs => .error (.typeErr "cannot read 0 of undefined")
  | .ptoBlock => .error (.syntaxErr "Out of input")

/-- Run the parser machine over the remaining tokens. -/
def pRun : List String → PSt → Except Err (List Value)
  | [], st => pfinish st
  | t :: ts, st =>
    match pstep t st with
    | .error e => .error e
    | .ok st2 => pRun ts st2

/-- `Interpreter.parse(tokens)`: the token state machine, producing the
parsed program as a Logo list value. -/
def parseJS (tokens : List String) : Except Err Value :=
  (pRun tokens { parsed := [], parens := 0, old := .pstart, stack := [], tag := .pstart }).map
    Value.ofList

/-- JS truthiness of a Logo value as used by `if (cond)`: `false`, `0` and
the empty string are falsy; every object — including the empty list and
functions — is truthy. -/
def truthy : Value → Bool
  | .bool b => b
  | .num q => q ≠ 0
  | .str s => s ≠ ""
  | _ => true

/-- Truthiness of a possibly-`undefined` value (`undefined` is falsy). -/
def truthyO : Option Value → Bool
  | none => false
  | some v => truthy v

/-- The JS `length` property of each modelled builtin function (parameters
declared before any rest parameter): `to(name, ...args)` has length 1. -/
def nativeArity : NTag → ℕ
  | .btrue => 0
  | .bfalse => 0
  | .stopTag => 0
  | .outputTag => 1
  | .toTag => 1
  | .testcmd => 1
  | .testout => 1
  | .makeTag => 2
  | .ifTag => 2
  | .ifelseTag => 3

/-- The JS `name` property of each modelled builtin function. -/
def natName : NTag → String
  | .btrue => "true"
  | .bfalse => "false"
  | .stopTag => "stop"
  | .outputTag => "output"
  | .toTag => "to"
  | .testcmd => "testcmd"
  | .testout => "testout"
  | .makeTag => "make"
  | .ifTag => "if"
  | .ifelseTag => "ifelse"

/-- `func.length` for the value found in a command binding.  Functions have
their declared arity; a JS string has a numeric `length` property too; for
every other value (and for an `undefined` binding) the property access
yields `undefined`, so every `args.length >= func.length` /
`args.length < func.length` comparison is false. -/
def arityOf : Option Value → Option ℕ
  | some (.native t) => some (nativeArity t)
  | some (.closure _ _ ps _ _) => some ps.length
  | some (.str s) => some s.length
  | _ => none

/-- `args.length >= func.length` (false when `func.length` is `undefined`). -/
def arityReached (func? : Option Value) (n : ℕ) : Bool :=
  match arityOf func? with
  | some a => n ≥ a
  | none => false

/-- `args.length < func.length` (false when `func.length` is `undefined`). -/
def argsShort (func? : Option Value) (n : ℕ) : Bool :=
  match arityOf func? with
  | some a => n < a
  | none => false

/-- `func.name` for error messages (`'undefined'` when the looked-up value
has no name property). -/
def fnName : Option Value → String
  | some (.native t) => natName t
  | some (.closure _ n _ _ _) => n
  | _ => "undefined"

/-- `isWord` applied to a program element: strings only. -/
def isWordV : Value → Bool
  | .str w => isWordStr w
  | _ => false

/-- `validateCommand(command)` from `Interpreter.evaluate`: the head must be
a word, and its binding is looked up in the scope captured at `evaluate`
entry (equal to the current scope whenever control is at this level).  An
unbound word is a `TypeError`; a bound one yields the binding's value,
which may itself be `undefined`. -/
def validateCommand (cmd : Value) (s : S) : Except Err (Option Value) :=
  match cmd with
  | .str w =>
    if isWordStr w then
      match scopeGetBinding s w with
      | some (_, v) => .ok v
      | none => .error (.typeErr ("Unbound function: " ++ w))
    else .error (.syntaxErr ("Invalid command word: " ++ w))
  | _ => .error (.syntaxErr "Invalid command word")

/-- `handleLiteral()` from `Interpreter.evaluate`: take the head of the
instruction cursor.  Lists, booleans and numbers are themselves; a string
starting with `"` is a string literal (quote stripped); a string starting
with `:` is a variable get through the ambient scope chain (an absent
binding is a `ReferenceError`, a present binding may hold `undefined`);
anything else — including function values — is an unexpected token.  Pure:
reads the state, never changes it.  Returns the produced value (if any) and
the advanced cursor. -/
def handleLiteral (iter : Value) (s : S) : Except Err (Option Value × Value) :=
  match iter with
  | .cons v rest =>
    match v with
    | .nil => .ok (some v, rest)
    | .cons _ _ => .ok (some v, rest)
    | .bool _ => .ok (some v, rest)
    | .num _ => .ok (some v, rest)
    | .native _ => .error (.syntaxErr "Unexpected token")
    | .closure _ _ _ _ _ => .error (.syntaxErr "Unexpected token")
    | .str t =>
      match t.data with
      | [] => .error (.syntaxErr ("Unexpected token " ++ t))
      | c :: cs =>
        if c = '"' then .ok (some (.str (String.mk cs)), rest)
        else if c = ':' then
          match scopeGetBinding s (String.mk cs) with
          | some (_, v?) => .ok (v?, rest)
          | none => .error (.refErr ("Undeclared variable " ++ String.mk cs))
        else .error (.syntaxErr ("Unexpected token " ++ t))
  | _ => .error (.typeErr "iter is not a list")

/-- Enter a user-defined procedure (the closure body built by
`Interpreter.procedure`): allocate a new `Scope` parented to the closure's
defining scope, bind each parameter name to the matching argument
(`args[index]`, which is `undefined` past the end of `args`), push the new
scope and a fresh `Context`. -/
def pushActivation (params : List String) (parent : ℕ) (args : List Value) (s : S) : S :=
  let sid := s.heap.length
  let binds := params.enum.foldl (fun bs ip => setLocal bs ip.2 (args.get? ip.1)) []
  { s with
    heap := s.heap ++ [⟨some parent, binds⟩],
    scopeStack := sid :: s.scopeStack,
    ctxStack := ⟨none, false⟩ :: s.ctxStack }

mutual

/-- The driver loop of `Interpreter.evaluate`, with `iter` the remaining
instruction cursor and `rv` the retval of the previous element.  Faithful to
the source order: the captured context's `stop` flag ends the loop (keeping
`rv`); a pending value with trailing instructions is the
`Extra instructions` structural error; otherwise elements are dispatched to
the variadic, fixed-call or literal handlers.  Fuel decreases on every
mutual call; `fuelErr` never occurs at sufficient fuel. -/
def evalLoop : ℕ → Value → Option Value → S → Except Err (Option Value) × S
  | 0, _, _, s => (.error .fuelErr, s)
  | f + 1, iter, rv, s =>
    if (s.ctxStack.headD ⟨none, false⟩).stop then (.ok rv, s)
    else
      match rv with
      | some _ =>
        match iter with
        | .nil => (.ok rv, s)
        | .cons _ _ => (.error (.syntaxErr "Extra instructions after a value-returning expression"), s)
        | _ => (.error (.typeErr "iter is not a list"), s)
      | none =>
        match iter with
        | .nil => (.ok none, s)
        | .cons h _ =>
          if h = Value.str "(" then
            match handleVariadic f iter s with
            | (.error e, s2) => (.error e, s2)
            | (.ok (v, iter2), s2) => evalLoop f iter2 v s2
          else if isWordV h then
            match handleFixed f iter s with
            | (.error e, s2) => (.error e, s2)
            | (.ok (v, iter2), s2) => evalLoop f iter2 v s2
          else
            match handleLiteral iter s with
            | .error e => (.error e, s)
            | .ok (v, iter2) => evalLoop f iter2 v s
        | _ => (.error (.typeErr "iter is not a list"), s)

/-- `handleArg()`: dispatch one argument expression — explicit-paren call,
fixed call, or literal.  Callers have already checked the cursor non-empty. -/
def handleArg : ℕ → Value → S → Except Err (Option Value × Value) × S
  | 0, _, s => (.error .fuelErr, s)
  | f + 1, iter, s =>
    match iter with
    | .cons h _ =>
      if h = Value.str "(" then handleVariadic f iter s
      else if isWordV h then handleFixed f iter s
      else
        match handleLiteral iter s with
        | .error e => (.error e, s)
        | .ok p => (.ok p, s)
    | _ => (.error (.typeErr "unreachable: handleArg callers ensure a non-empty cursor"), s)

/-- `handleFixed()`: resolve the leading word to a bound procedure and
gather exactly `func.length` arguments. -/
def handleFixed : ℕ → Value → S → Except Err (Option Value × Value) × S
  | 0, _, s => (.error .fuelErr, s)
  | f + 1, iter, s =>
    match iter with
    | .cons cmd rest =>
      match validateCommand cmd s with
      | .error e => (.error e, s)
      | .ok func? => gatherFixed f func? (fnName func?) [] rest s
    | _ => (.error (.typeErr "unreachable: handleFixed callers ensure a word head"), s)

/-- The argument-gathering loop of `handleFixed`: while the context has not
stopped, invoke once the declared arity is reached, otherwise consume one
more argument expression (running out of input, or an argument that
produces no value, is a structural error).  If the context stops
mid-gathering the call is abandoned and `undefined` is returned. -/
def gatherFixed : ℕ → Option Value → String → List Value → Value → S →
    Except Err (Option Value × Value) × S
  | 0, _, _, _, _, s => (.error .fuelErr, s)
  | f + 1, func?, nm, args, iter, s =>
    if (s.ctxStack.headD ⟨none, false⟩).stop then (.ok (none, iter), s)
    else if arityReached func? args.length then
      match performCall f func? args s with
      | (.error e, s2) => (.error e, s2)
      | (.ok v, s2) => (.ok (v, iter), s2)
    else
      match iter with
      | .nil => (.error (.syntaxErr "End of input expecting fixed arg"), s)
      | .cons _ _ =>
        match handleArg f iter s with
        | (.error e, s2) => (.error e, s2)
        | (.ok (none, _), s2) =>
          (.error (.syntaxErr ("Expected output from arg to " ++ nm)), s2)
        | (.ok (some v, iter2), s2) => gatherFixed f func? nm (args ++ [v]) iter2 s2
      | _ => (.error (.typeErr "iter is not a list"), s)

/-- `handleVariadic()`: consume the `(`, resolve the command word, and
gather arguments up to the matching `)`. -/
def handleVariadic : ℕ → Value → S → Except Err (Option Value × Value) × S
  | 0, _, s => (.error .fuelErr, s)
  | f + 1, iter, s =>
    match iter with
    | .cons _ rest =>
      match rest with
      | .nil => (.error (.syntaxErr "End of input expecting variadic command"), s)
      | .cons cmd after =>
        match validateCommand cmd s with
        | .error e => (.error e, s)
        | .ok func? => gatherVariadic f func? (fnName func?) [] after s
      | _ => (.error (.typeErr "iter is not a list"), s)
    | _ => (.error (.typeErr "unreachable: handleVariadic callers ensure a paren head"), s)

/-- The argument-gathering loop of `handleVariadic`: arguments are consumed
until the closing `)`; at the `)` the call proceeds when at least
`func.length` arguments were gathered (extra arguments are allowed). -/
def gatherVariadic : ℕ → Option Value → String → List Value → Value → S →
    Except Err (Option Value × Value) × S
  | 0, _, _, _, _, s => (.error .fuelErr, s)
  | f + 1, func?, nm, args, iter, s =>
    if (s.ctxStack.headD ⟨none, false⟩).stop then (.ok (none, iter), s)
    else
      match iter with
      | .nil => (.error (.syntaxErr "End of input expecting variadic arg"), s)
      | .cons h t =>
        if h = Value.str ")" then
          if argsShort func? args.length then
            (.error (.syntaxErr ("Not enough args to call " ++ nm)), s)
          else
            match performCall f func? args s with
            | (.error e, s2) => (.error e, s2)
            | (.ok v, s2) => (.ok (v, t), s2)
        else
          match handleArg f iter s with
          | (.error e, s2) => (.error e, s2)
          | (.ok (none, _), s2) =>
            (.error (.syntaxErr ("Expected output from arg to " ++ nm)), s2)
          | (.ok (some v, iter2), s2) => gatherVariadic f func? nm (args ++ [v]) iter2 s2
      | _ => (.error (.typeErr "iter is not a list"), s)

/-- `Interpreter.performCall(func, args)`: the suspension checkpoint
(`checkBreak`) followed by the call.  A set break flag rejects with the
plain `Break requested` error; a paused interpreter suspends at this exact
point and, on `continue()`, proceeds unchanged, so the model takes the
resumed path; the `oncall`/`onvalue` hooks are `null` here. -/
def performCall : ℕ → Option Value → List Value → S → Except Err (Option Value) × S
  | 0, _, _, s => (.error .fuelErr, s)
  | f + 1, func?, args, s =>
    if s.breakFlag then (.error (.plainErr "Break requested"), s)
    else callFn f func? args s

/-- `func.apply(this, args)`: dispatch on the called value — a builtin, a
user-defined closure, or a non-function (a `TypeError`, as in JS). -/
def callFn : ℕ → Option Value → List Value → S → Except Err (Option Value) × S
  | 0, _, _, s => (.error .fuelErr, s)
  | f + 1, func?, args, s =>
    match func? with
    | some (.native t) => nativeCall f t args s
    | some (.closure _ _ ps body parent) => callDefined f ps body parent args s
    | _ => (.error (.typeErr "is not a function"), s)

/-- The bodies of the modelled builtins, argument-for-argument from the
`builtins` table of `logo.js`:

- `true`/`false` return the boolean;
- `stop` sets the current context's `stop` flag;
- `output` sets the current context's `stop` flag and `output` value;
- `if(cond, block)` evaluates `block` with the same context when `cond` is
  truthy, else returns `undefined`;
- `ifelse(cond, thenBlock, elseBlock)` — as written in the source, both
  branches read an identifier `block` that is not defined in the function,
  so every invocation throws `ReferenceError` (`block is not defined`)
  instead of evaluating a branch;
- `make(name, val)` requires a string name and runs `currentScope().set`;
- `to(name, ...args)` takes the body as the last argument and the parameter
  names (which must be strings) before it, builds a closure over the scope
  current at definition time, and binds the name in that same scope
  (silently replacing any previous binding);
- `testcmd` does nothing; `testout` records its argument (test harness). -/
def nativeCall : ℕ → NTag → List Value → S → Except Err (Option Value) × S
  | 0, _, _, s => (.error .fuelErr, s)
  | f + 1, t, args, s =>
    match t with
    | .btrue => (.ok (some (.bool true)), s)
    | .bfalse => (.ok (some (.bool false)), s)
    | .stopTag => (.ok none, setCtxHead (fun c => { c with stop := true }) s)
    | .outputTag =>
      (.ok none, setCtxHead (fun c => { c with stop := true, output := args.get? 0 }) s)
    | .ifTag =>
      if truthyO (args.get? 0) then
        match args.get? 1 with
        | some b => evalLoop f b none s
        | none => (.error (.typeErr "cannot iterate undefined"), s)
      else (.ok none, s)
    | .ifelseTag => (.error (.refErr "block is not defined"), s)
    | .makeTag =>
      match args.get? 0 with
      | some (.str name) => (.ok none, scopeSet name (args.get? 1) s)
      | _ => (.error (.typeErr "Invalid variable name"), s)
    | .toTag =>
      match args with
      | [] => (.error (.typeErr "function name must be a string"), s)
      | nameV :: rest =>
        match nameV with
        | .str name =>
          if rest.length < 1 then (.error (.typeErr "function must have a body"), s)
          else
            let body := (rest.getLast?).getD .nil
            match (rest.dropLast).mapM (fun v =>
                match v with
                | .str p => some p
                | _ => none) with
            | none => (.error (.typeErr "function argument names must be strings"), s)
            | some names =>
              let v := Value.closure s.nextId name names body (currentSid s)
              (.ok none, bindValueCur name (some v) { s with nextId := s.nextId + 1 })
        | _ => (.error (.typeErr "function name must be a string"), s)
    | .testcmd => (.ok none, s)
    | .testout => (.ok none, { s with testoutVal := args.get? 0 })

/-- Call a user-defined procedure: push the parameter scope and a fresh
context, evaluate the body, and — `finally` — pop both, on the normal and
the error path alike; on normal return the result is the popped context's
`output` (the body's own evaluation result is discarded). -/
def callDefined : ℕ → List String → Value → ℕ → List Value → S →
    Except Err (Option Value) × S
  | 0, _, _, _, _, s => (.error .fuelErr, s)
  | f + 1, params, body, parent, args, s =>
    match evalLoop f body none (pushActivation params parent args s) with
    | (.ok _, s2) =>
      (.ok (s2.ctxStack.headD ⟨none, false⟩).output,
       { s2 with ctxStack := s2.ctxStack.tail, scopeStack := s2.scopeStack.tail })
    | (.error e, s2) =>
      (.error e,
       { s2 with ctxStack := s2.ctxStack.tail, scopeStack := s2.scopeStack.tail })

end

/-- `Interpreter.evaluate(body)`: the driver loop started with no pending
value. -/
def evaluate (fuel : ℕ) (body : Value) (s : S) : Except Err (Option Value) × S :=
  evalLoop fuel body none s

/-- The bindings installed in `globalScope` by the `Interpreter`
constructor (`bindValues(builtins)`), restricted to the builtins modelled
here, plus the test harness's `testcmd`/`testout` commands (the test files
bind them into `globalScope` before `execute`). -/
def builtinBinds : List (String × Option Value) :=
  [("true", some (.native .btrue)), ("false", some (.native .bfalse)),
   ("make", some (.native .makeTag)), ("to", some (.native .toTag)),
   ("if", some (.native .ifTag)), ("ifelse", some (.native .ifelseTag)),
   ("stop", some (.native .stopTag)), ("output", some (.native .outputTag)),
   ("testcmd", some (.native .testcmd)), ("testout", some (.native .testout))]

/-- A freshly constructed `Interpreter`: global scope (id 0) holding the
builtins, the scope and context stacks holding exactly the global scope and
the global context, and all run flags clear. -/
def initS : S :=
  { heap := [⟨none, builtinBinds⟩],
    scopeStack := [0],
    ctxStack := [⟨none, false⟩],
    running := false,
    breakFlag := false,
    paused := false,
    oncontinue := false,
    onbreak := false,
    nextId := 0,
    testoutVal := none }

/-- `Interpreter.execute(source)`: refuse re-entry while running; tokenize
and parse (errors thrown before `running` is set); evaluate with the run
flag set; `finally` clear `breakFlag` and `running` on every exit path; a
leftover top-level value is the `Unhandled output value` structural error. -/
def execute (fuel : ℕ) (source : String) (s : S) : Except Err Unit × S :=
  if s.running then (.error (.plainErr "Logo code is already running"), s)
  else
    match tokenizeJS source with
    | .error e => (.error e, s)
    | .ok tokens =>
      match parseJS tokens with
      | .error e => (.error e, s)
      | .ok parsed =>
        match evaluate fuel parsed { s with running := true } with
        | (r, s2) =>
          let s3 := { s2 with breakFlag := false, running := false }
          match r with
          | .ok none => (.ok (), s3)
          | .ok (some _) => (.error (.syntaxErr "Unhandled output value"), s3)
          | .error e => (.error e, s3)

/-- `Interpreter.pause()`: requires running and not already paused; sets the
paused flag. -/
def pauseI (s : S) : Except Err Unit × S :=
  if ¬ s.running then (.error (.plainErr "Cannot pause when not running"), s)
  else if s.paused then (.error (.plainErr "Already paused"), s)
  else (.ok (), { s with paused := true })

/-- `Interpreter.continue()`: requires running and paused; clears the paused
flag and invokes `this.oncontinue()` — which is a `TypeError` if no
continuation callback was registered (`oncontinue` still `null`). -/
def continueI (s : S) : Except Err Unit × S :=
  if ¬ s.running then (.error (.plainErr "Cannot continue when not running"), s)
  else if ¬ s.paused then (.error (.plainErr "Cannot continue when not paused"), s)
  else
    let s1 := { s with paused := false }
    if s1.oncontinue then (.ok (), s1)
    else (.error (.typeErr "this.oncontinue is not a function"), s1)

/-- `Interpreter.break()`: requires running and the break flag not already
set; sets the break flag, fires any registered `onbreak` callback (an
external promise rejection, no interpreter-state effect), and, if paused,
runs `this.continue()` (whose exception, if any, propagates). -/
def breakI (s : S) : Except Err Unit × S :=
  if ¬ s.running then (.error (.plainErr "Cannot break when not running"), s)
  else if s.breakFlag then (.error (.plainErr "Already breaking"), s)
  else
    let s1 := { s with breakFlag := true }
    if s1.paused then continueI s1
    else (.ok (), s1)

namespace Value

/-- Unfolding of `List.equal` at the reflexive call: the leading `a === b`
identity test succeeds. -/
theorem lequal_refl (a : Value) : a.lequal a = true := by
  rw [Value.lequal.eq_def]; simp

/-- Unfolding of `List.equal([], cons)`: both are lists and the empty
list's `head` and `tail` are itself. -/
theorem lequal_nil_cons (hb tb : Value) :
    Value.lequal .nil (.cons hb tb) = (Value.lequal .nil hb && Value.lequal .nil tb) := by
  rw [Value.lequal.eq_def]; simp

/-- Unfolding of `List.equal(cons, [])`, mirror image. -/
theorem lequal_cons_nil (ha ta : Value) :
    Value.lequal (.cons ha ta) .nil = (Value.lequal ha .nil && Value.lequal ta .nil) := by
  rw [Value.lequal.eq_def]; simp

/-- Unfolding of `List.equal` on two non-empty records. -/
theorem lequal_cons_cons (ha ta hb tb : Value) :
    Value.lequal (.cons ha ta) (.cons hb tb) =
      (if Value.cons ha ta = Value.cons hb tb then true
       else Value.lequal ha hb && Value.lequal ta tb) := by
  rw [Value.lequal.eq_def]

/-- On two atoms `List.equal` is exactly the `===` test. -/
theorem lequal_atoms (x y : Value) (hx : x.isAtom = true) (hy : y.isAtom = true) :
    Value.lequal x y = decide (x = y) := by
  by_cases hxy : x = y
  · subst hxy; simp [lequal_refl]
  · rw [Value.lequal.eq_def]
    cases x <;> cases y <;> simp_all [Value.isAtom]

/-- The empty list never equals an atom. -/
theorem lequal_nil_atom (h : Value) (hh : h.isAtom = true) : Value.lequal .nil h = false := by
  rw [Value.lequal.eq_def]
  cases h <;> simp_all [Value.isAtom]

/-- An atom never equals the empty list. -/
theorem lequal_atom_nil (h : Value) (hh : h.isAtom = true) : Value.lequal h .nil = false := by
  rw [Value.lequal.eq_def]
  cases h <;> simp_all [Value.isAtom]

/-- `List.equal` is symmetric: the definition treats its arguments
symmetrically arm by arm. -/
theorem lequal_symm (a b : Value) : a.lequal b = b.lequal a := by
  generalize h : sizeOf a + sizeOf b = n
  induction n using Nat.strong_induction_on generalizing a b with
  | _ n ih =>
    subst h
    by_cases hab : a = b
    · subst hab; rfl
    · rw [Value.lequal.eq_def, Value.lequal.eq_def]
      simp only [if_neg hab, if_neg (Ne.symm hab)]
      cases a <;> cases b <;> try rfl
      · rename_i hb tb
        show (Value.lequal .nil hb && Value.lequal .nil tb)
          = (Value.lequal hb .nil && Value.lequal tb .nil)
        rw [ih _ (by simp <;> omega) Value.nil hb rfl, ih _ (by simp <;> omega) Value.nil tb rfl]
      · rename_i ha ta
        show (Value.lequal ha .nil && Value.lequal ta .nil)
          = (Value.lequal .nil ha && Value.lequal .nil ta)
        rw [ih _ (by simp <;> omega) ha Value.nil rfl, ih _ (by simp <;> omega) ta Value.nil rfl]
      · rename_i ha ta hb tb
        show (Value.lequal ha hb && Value.lequal ta tb)
          = (Value.lequal hb ha && Value.lequal tb ta)
        rw [ih _ (by simp <;> omega) ha hb rfl, ih _ (by simp <;> omega) ta tb rfl]

/-- Two independently constructed lists whose elements compare equal
pairwise (in the same order) compare equal. -/
theorem lequal_of_forall2 (xs ys : List Value)
    (h : List.Forall₂ (fun x y => x.lequal y = true) xs ys) :
    (Value.ofList xs).lequal (Value.ofList ys) = true := by
  induction h with
  | nil => exact lequal_refl _
  | cons hxy _ ih =>
    rw [Value.ofList, Value.ofList, lequal_cons_cons]
    split
    · rfl
    · simp [hxy, ih]

/-- On lists of atoms `List.equal` coincides with structural identity, so
different lengths or a differing element mean unequal.  (Without the
flatness restriction this fails: see the claim 9 counterexample.) -/
theorem lequal_flat (a b : Value) (ha : a.flatList = true) (hb : b.flatList = true) :
    (a.lequal b = true ↔ a = b) := by
  induction a generalizing b with
  | cons xa ta ihh iht =>
    simp only [Value.flatList, Bool.and_eq_true] at ha
    cases b with
    | cons xb tb =>
      simp only [Value.flatList, Bool.and_eq_true] at hb
      rw [lequal_cons_cons]
      split
      · simp_all
      · rw [Bool.and_eq_true, lequal_atoms xa xb ha.1 hb.1]
        rw [iht tb ha.2 hb.2]
        simp [Value.cons.injEq]
    | nil =>
      rw [lequal_cons_nil, Bool.and_eq_true, lequal_atom_nil xa ha.1]
      simp
    | _ => simp_all [Value.flatList]
  | nil =>
    cases b with
    | cons xb tb =>
      simp only [Value.flatList, Bool.and_eq_true] at hb
      rw [lequal_nil_cons, Bool.and_eq_true, lequal_nil_atom xb hb.1]
      simp
    | nil => simp [lequal_refl]
    | _ => simp_all [Value.flatList]
  | _ => simp_all [Value.flatList]

end Value

/-- One-step unfolding of `evalLoop` at positive fuel. -/
theorem evalLoop_succ (f : ℕ) (iter : Value) (rv : Option Value) (s : S) :
    evalLoop (f + 1) iter rv s =
      (if (s.ctxStack.headD ⟨none, false⟩).stop then (.ok rv, s)
       else
         match rv with
         | some _ =>
           match iter with
           | .nil => (.ok rv, s)
           | .cons _ _ => (.error (.syntaxErr "Extra instructions after a value-returning expression"), s)
           | _ => (.error (.typeErr "iter is not a list"), s)
         | none =>
           match iter with
           | .nil => (.ok none, s)
           | .cons h _ =>
             if h = Value.str "(" then
               match handleVariadic f iter s with
               | (.error e, s2) => (.error e, s2)
               | (.ok (v, iter2), s2) => evalLoop f iter2 v s2
             else if isWordV h then
               match handleFixed f iter s with
               | (.error e, s2) => (.error e, s2)
               | (.ok (v, iter2), s2) => evalLoop f iter2 v s2
             else
               match handleLiteral iter s with
               | .error e => (.error e, s)
               | .ok (v, iter2) => evalLoop f iter2 v s
           | _ => (.error (.typeErr "iter is not a list"), s)) := rfl

/-- One-step unfolding of `handleArg` at positive fuel. -/
theorem handleArg_succ (f : ℕ) (iter : Value) (s : S) :
    handleArg (f + 1) iter s =
      (match iter with
       | .cons h _ =>
         if h = Value.str "(" then handleVariadic f iter s
         else if isWordV h then handleFixed f iter s
         else
           match handleLiteral iter s with
           | .error e => (.error e, s)
           | .ok p => (.ok p, s)
       | _ => (.error (.typeErr "unreachable: handleArg callers ensure a non-empty cursor"), s)) := rfl

/-- One-step unfolding of `handleFixed` at positive fuel. -/
theorem handleFixed_succ (f : ℕ) (iter : Value) (s : S) :
    handleFixed (f + 1) iter s =
      (match iter with
       | .cons cmd rest =>
         match validateCommand cmd s with
         | .error e => (.error e, s)
         | .ok func? => gatherFixed f func? (fnName func?) [] rest s
       | _ => (.error (.typeErr "unreachable: handleFixed callers ensure a word head"), s)) := rfl

/-- One-step unfolding of `gatherFixed` at positive fuel. -/
theorem gatherFixed_succ (f : ℕ) (func? : Option Value) (nm : String) (args : List Value)
    (iter : Value) (s : S) :
    gatherFixed (f + 1) func? nm args iter s =
      (if (s.ctxStack.headD ⟨none, false⟩).stop then (.ok (none, iter), s)
       else if arityReached func? args.length then
         match performCall f func? args s with
         | (.error e, s2) => (.error e, s2)
         | (.ok v, s2) => (.ok (v, iter), s2)
       else
         match iter with
         | .nil => (.error (.syntaxErr "End of input expecting fixed arg"), s)
         | .cons _ _ =>
           match handleArg f iter s with
           | (.error e, s2) => (.error e, s2)
           | (.ok (none, _), s2) =>
             (.error (.syntaxErr ("Expected output from arg to " ++ nm)), s2)
           | (.ok (some v, iter2), s2) => gatherFixed f func? nm (args ++ [v]) iter2 s2
         | _ => (.error (.typeErr "iter is not a list"), s)) := rfl

/-- One-step unfolding of `handleVariadic` at positive fuel. -/
theorem handleVariadic_succ (f : ℕ) (iter : Value) (s : S) :
    handleVariadic (f + 1) iter s =
      (match iter with
       | .cons _ rest =>
         match rest with
         | .nil => (.error (.syntaxErr "End of input expecting variadic command"), s)
         | .cons cmd after =>
           match validateCommand cmd s with
           | .error e => (.error e, s)
           | .ok func? => gatherVariadic f func? (fnName func?) [] after s
         | _ => (.error (.typeErr "iter is not a list"), s)
       | _ => (.error (.typeErr "unreachable: handleVariadic callers ensure a paren head"), s)) := rfl

/-- One-step unfolding of `gatherVariadic` at positive fuel. -/
theorem gatherVariadic_succ (f : ℕ) (func? : Option Value) (nm : String) (args : List Value)
    (iter : Value) (s : S) :
    gatherVariadic (f + 1) func? nm args iter s =
      (if (s.ctxStack.headD ⟨none, false⟩).stop then (.ok (none, iter), s)
       else
         match iter with
         | .nil => (.error (.syntaxErr "End of input expecting variadic arg"), s)
         | .cons h t =>
           if h = Value.str ")" then
             if argsShort func? args.length then
               (.error (.syntaxErr ("Not enough args to call " ++ nm)), s)
             else
               match performCall f func? args s with
               | (.error e, s2) => (.error e, s2)
               | (.ok v, s2) => (.ok (v, t), s2)
           else
             match handleArg f iter s with
             | (.error e, s2) => (.error e, s2)
             | (.ok (none, _), s2) =>
               (.error (.syntaxErr ("Expected output from arg to " ++ nm)), s2)
             | (.ok (some v, iter2), s2) => gatherVariadic f func? nm (args ++ [v]) iter2 s2
         | _ => (.error (.typeErr "iter is not a list"), s)) := rfl

/-- One-step unfolding of `performCall` at positive fuel. -/
theorem performCall_succ (f : ℕ) (func? : Option Value) (args : List Value) (s : S) :
    performCall (f + 1) func? args s =
      (if s.breakFlag then (.error (.plainErr "Break requested"), s)
       else callFn f func? args s) := rfl

/-- One-step unfolding of `callFn` at positive fuel. -/
theorem callFn_succ (f : ℕ) (func? : Option Value) (args : List Value) (s : S) :
    callFn (f + 1) func? args s =
      (match func? with
       | some (.native t) => nativeCall f t args s
       | some (.closure _ _ ps body parent) => callDefined f ps body parent args s
       | _ => (.error (.typeErr "is not a function"), s)) := rfl

/-- One-step unfolding of `nativeCall` at positive fuel. -/
theorem nativeCall_succ (f : ℕ) (t : NTag) (args : List Value) (s : S) :
    nativeCall (f + 1) t args s =
      (match t with
       | .btrue => (.ok (some (.bool true)), s)
       | .bfalse => (.ok (some (.bool false)), s)
       | .stopTag => (.ok none, setCtxHead (fun c => { c with stop := true }) s)
       | .outputTag =>
         (.ok none, setCtxHead (fun c => { c with stop := true, output := args.get? 0 }) s)
       | .ifTag =>
         if truthyO (args.get? 0) then
           match args.get? 1 with
           | some b => evalLoop f b none s
           | none => (.error (.typeErr "cannot iterate undefined"), s)
         else (.ok none, s)
       | .ifelseTag => (.error (.refErr "block is not defined"), s)
       | .makeTag =>
         match args.get? 0 with
         | some (.str name) => (.ok none, scopeSet name (args.get? 1) s)
         | _ => (.error (.typeErr "Invalid variable name"), s)
       | .toTag =>
         match args with
         | [] => (.error (.typeErr "function name must be a string"), s)
         | nameV :: rest =>
           match nameV with
           | .str name =>
             if rest.length < 1 then (.error (.typeErr "function must have a body"), s)
             else
               let body := (rest.getLast?).getD .nil
               match (rest.dropLast).mapM (fun v =>
                   match v with
                   | .str p => some p
                   | _ => none) with
               | none => (.error (.typeErr "function argument names must be strings"), s)
               | some names =>
                 let v := Value.closure s.nextId name names body (currentSid s)
                 (.ok none, bindValueCur name (some v) { s with nextId := s.nextId + 1 })
           | _ => (.error (.typeErr "function name must be a string"), s)
       | .testcmd => (.ok none, s)
       | .testout => (.ok none, { s with testoutVal := args.get? 0 })) := rfl

/-- One-step unfolding of `callDefined` at positive fuel. -/
theorem callDefined_succ (f : ℕ) (params : List String) (body : Value) (parent : ℕ)
    (args : List Value) (s : S) :
    callDefined (f + 1) params body parent args s =
      (match evalLoop f body none (pushActivation params parent args s) with
       | (.ok _, s2) =>
         (.ok (s2.ctxStack.headD ⟨none, false⟩).output,
          { s2 with ctxStack := s2.ctxStack.tail, scopeStack := s2.scopeStack.tail })
       | (.error e, s2) =>
         (.error e,
          { s2 with ctxStack := s2.ctxStack.tail, scopeStack := s2.scopeStack.tail })) := rfl

/-- The pair (scope-stack depth, context-stack depth) of a state. -/
def depthOf (s : S) : ℕ × ℕ := (s.scopeStack.length, s.ctxStack.length)

/-- Mutating the current context in place keeps both stack depths. -/
theorem depthOf_setCtxHead (f : Ctx → Ctx) (s : S) : depthOf (setCtxHead f s) = depthOf s := by
  unfold depthOf setCtxHead; cases s.ctxStack <;> rfl

/-- `Scope.set` touches only the heap of scope records. -/
theorem depthOf_scopeSet (n : String) (v : Option Value) (s : S) :
    depthOf (scopeSet n v s) = depthOf s := by
  unfold scopeSet; split <;> rfl

/-- Entering an activation pushes exactly one scope and one context. -/
theorem pushActivation_stacks (ps : List String) (par : ℕ) (args : List Value) (s : S) :
    (pushActivation ps par args s).scopeStack.length = s.scopeStack.length + 1 ∧
    (pushActivation ps par args s).ctxStack.length = s.ctxStack.length + 1 := by
  simp [pushActivation]

/-- Every evaluator entry point preserves the depths of the scope and
context stacks, at every fuel and on the normal and the error path alike:
the only pushes are the procedure-activation pushes of `callDefined`, and
its `finally` pops them again whatever the body evaluation did. -/
theorem depth_invariant : ∀ fuel : ℕ,
    (∀ it rv s, depthOf (evalLoop fuel it rv s).2 = depthOf s)
  ∧ (∀ it s, depthOf (handleArg fuel it s).2 = depthOf s)
  ∧ (∀ it s, depthOf (handleFixed fuel it s).2 = depthOf s)
  ∧ (∀ fn nm args it s, depthOf (gatherFixed fuel fn nm args it s).2 = depthOf s)
  ∧ (∀ it s, depthOf (handleVariadic fuel it s).2 = depthOf s)
  ∧ (∀ fn nm args it s, depthOf (gatherVariadic fuel fn nm args it s).2 = depthOf s)
  ∧ (∀ fn args s, depthOf (performCall fuel fn args s).2 = depthOf s)
  ∧ (∀ fn args s, depthOf (callFn fuel fn args s).2 = depthOf s)
  ∧ (∀ t args s, depthOf (nativeCall fuel t args s).2 = depthOf s)
  ∧ (∀ ps body par args s, depthOf (callDefined fuel ps body par args s).2 = depthOf s) := by
  intro fuel
  induction fuel with
  | zero =>
    refine ⟨?_, ?_, ?_, ?_, ?_, ?_, ?_, ?_, ?_, ?_⟩ <;> intros <;> rfl
  | succ n IH =>
    obtain ⟨ihEL, ihHA, ihHF, ihGF, ihHV, ihGV, ihPC, ihCF, ihNC, ihCD⟩ := IH
    have hNC : ∀ t args s, depthOf (nativeCall (n + 1) t args s).2 = depthOf s := by
      intro t args s
      rw [nativeCall_succ]
      cases t <;> repeat' split
      all_goals first
        | rfl
        | exact depthOf_setCtxHead _ _
        | exact depthOf_scopeSet _ _ _
        | exact ihEL _ _ _
    have hCD : ∀ ps body par args s, depthOf (callDefined (n + 1) ps body par args s).2 = depthOf s := by
      intro ps body par args s
      rw [callDefined_succ]
      split
      all_goals
        (rename_i heq
         have h1 := (congrArg (fun p => depthOf p.2) heq).symm.trans
           (ihEL body none (pushActivation ps par args s))
         have h2 := pushActivation_stacks ps par args s
         simp only [depthOf, Prod.mk.injEq] at h1 ⊢
         rw [List.length_tail, List.length_tail]
         omega)
    have hPC : ∀ fn args s, depthOf (performCall (n + 1) fn args s).2 = depthOf s := by
      intro fn args s
      rw [performCall_succ]
      split
      · rfl
      · exact ihCF _ _ _
    have hCF : ∀ fn args s, depthOf (callFn (n + 1) fn args s).2 = depthOf s := by
      intro fn args s
      rw [callFn_succ]
      split
      · exact ihNC _ _ _
      · exact ihCD _ _ _ _ _
      · rfl
    have hGF : ∀ fn nm args it s, depthOf (gatherFixed (n + 1) fn nm args it s).2 = depthOf s := by
      intro fn nm args it s
      rw [gatherFixed_succ]
      repeat' split
      all_goals first
        | rfl
        | (rename_i heq
           first
             | exact (congrArg (fun p => depthOf p.2) heq).symm.trans (ihPC _ _ _)
             | exact (congrArg (fun p => depthOf p.2) heq).symm.trans (ihHA _ _)
             | exact (ihGF _ _ _ _ _).trans
                 ((congrArg (fun p => depthOf p.2) heq).symm.trans (ihHA _ _)))
    have hGV : ∀ fn nm args it s, depthOf (gatherVariadic (n + 1) fn nm args it s).2 = depthOf s := by
      intro fn nm args it s
      rw [gatherVariadic_succ]
      repeat' split
      all_goals first
        | rfl
        | (rename_i heq
           first
             | exact (congrArg (fun p => depthOf p.2) heq).symm.trans (ihPC _ _ _)
             | exact (congrArg (fun p => depthOf p.2) heq).symm.trans (ihHA _ _)
             | exact (ihGV _ _ _ _ _).trans
                 ((congrArg (fun p => depthOf p.2) heq).symm.trans (ihHA _ _)))
    have hHF : ∀ it s, depthOf (handleFixed (n + 1) it s).2 = depthOf s := by
      intro it s
      rw [handleFixed_succ]
      repeat' split
      all_goals first
        | rfl
        | exact ihGF _ _ _ _ _
    have hHV : ∀ it s, depthOf (handleVariadic (n + 1) it s).2 = depthOf s := by
      intro it s
      rw [handleVariadic_succ]
      repeat' split
      all_goals first
        | rfl
        | exact ihGV _ _ _ _ _
    have hHA : ∀ it s, depthOf (handleArg (n + 1) it s).2 = depthOf s := by
      intro it s
      rw [handleArg_succ]
      repeat' split
      all_goals first
        | rfl
        | exact ihHV _ _
        | exact ihHF _ _
    have hEL : ∀ it rv s, depthOf (evalLoop (n + 1) it rv s).2 = depthOf s := by
      intro it rv s
      rw [evalLoop_succ]
      repeat' split
      all_goals first
        | rfl
        | exact ihEL _ _ _
        | (rename_i heq
           first
             | exact (congrArg (fun p => depthOf p.2) heq).symm.trans (ihHV _ _)
             | exact (congrArg (fun p => depthOf p.2) heq).symm.trans (ihHF _ _)
             | exact (ihEL _ _ _).trans
                 ((congrArg (fun p => depthOf p.2) heq).symm.trans (ihHV _ _))
             | exact (ihEL _ _ _).trans
                 ((congrArg (fun p => depthOf p.2) heq).symm.trans (ihHF _ _)))
    exact ⟨hEL, hHA, hHF, hGF, hHV, hGV, hPC, hCF, hNC, hCD⟩

/-- Claim 1 (code bug): the spec and the repository's tests require infix
operators with precedence climbing (`1 + 2` → 3, `3 * 4 + 2` → 14,
`(2 + 3) * 4` → 20, `48 * (2 + 3)` → 240), but this revision's tokenizer
has no operator token class at all: `*` matches no arm of the `start`
handler, and `+`/`-` enter the `numberSign` state which demands a digit.
All four scenario programs are rejected while tokenizing, with the state
machine's plain `Unexpected input` error. -/
theorem claim1_infix_scenarios_fail_to_tokenize :
    (execute 100 "1 + 2" initS).1
      = .error (.plainErr "Unexpected input   in state numberSign")
  ∧ (execute 100 "3 * 4 + 2" initS).1
      = .error (.plainErr "Unexpected input * in state start")
  ∧ (execute 100 "(2 + 3) * 4" initS).1
      = .error (.plainErr "Unexpected input   in state numberSign")
  ∧ (execute 100 "48 * (2 + 3)" initS).1
      = .error (.plainErr "Unexpected input * in state start") := by
  refine ⟨?_, ?_, ?_, ?_⟩ <;> with_unfolding_all rfl

/-- Claim 2 (confirmed): the `if` builtin evaluates its block with the very
same interpreter state — in particular the same current Context, no new
activation record — so an `output` inside the block stops the enclosing
procedure activation.  Concretely, `to f if true [output 1] output 2 end`
invoked as `f` returns 1 to the test harness's `testout`, the whole program
succeeds, and `output 2` is never reached (the recorded result is 1,
not 2). -/
theorem claim2_output_inside_nested_if :
    (∀ fuel : ℕ, ∀ cond block : Value, ∀ s : S, truthy cond = true →
       nativeCall (fuel + 1) .ifTag [cond, block] s = evalLoop fuel block none s)
  ∧ (execute 200 "to f if true [output 1] output 2 end testout f" initS).1 = .ok ()
  ∧ (execute 200 "to f if true [output 1] output 2 end testout f" initS).2.testoutVal
      = some (.num 1) := by
  refine ⟨?_, by with_unfolding_all rfl, by with_unfolding_all rfl⟩
  intro fuel cond block s hc
  rw [nativeCall_succ]
  simp [truthyO, hc]

/-- Witness for claim 2: the generic conjunct applied to a concrete truthy
condition. -/
theorem claim2_output_inside_nested_if_witness :
    nativeCall 8 .ifTag [.bool true, .nil] initS = evalLoop 7 .nil none initS :=
  claim2_output_inside_nested_if.1 7 (.bool true) .nil initS (by decide)

/-- Claim 3 (code bug): `Scope.set`, when no binding for the name is
visible anywhere in the chain, creates the binding in the *current* frame
(`this.bindValue`), not in the global scope.  So `make` inside a procedure
activation with an unbound name creates a local that disappears when the
activation's scope is popped: the repository's own scoping test program
then fails with an unbound-variable `ReferenceError` instead of reading the
expected global, and no binding for the name is ever visible from the
global scope. -/
theorem claim3_make_unbound_binds_in_current_frame :
    (∀ s : S, ∀ name : String, ∀ v : Option Value,
       scopeGetBinding s name = none → scopeSet name v s = bindValueCur name v s)
  ∧ (execute 200 "to dostuff make \"aglobal\" \"global\" end dostuff testout :aglobal" initS).1
      = .error (.refErr "Undeclared variable aglobal")
  ∧ lookupChain
      (execute 200 "to dostuff make \"aglobal\" \"global\" end dostuff testout :aglobal" initS).2.heap
      3 0 "aglobal" = none
  ∧ ((execute 200 "to dostuff make \"aglobal\" \"global\" end dostuff testout :aglobal" initS).2.heap.get? 1)
      = some ⟨some 0, [("aglobal", some (Value.str "global"))]⟩ := by
  refine ⟨?_, by with_unfolding_all rfl, by with_unfolding_all rfl, by with_unfolding_all rfl⟩
  intro s name v h
  unfold scopeSet
  rw [h]

/-- Witness for claim 3: the generic conjunct applied at a name unbound in
the fresh interpreter. -/
theorem claim3_make_unbound_binds_in_current_frame_witness :
    scopeSet "zzz" none initS = bindValueCur "zzz" none initS :=
  claim3_make_unbound_binds_in_current_frame.1 initS "zzz" none (by with_unfolding_all decide)

/-- Claim 4 (code bug): `builtins.ifelse` reads an identifier `block` that
is not defined anywhere in the function (both branches say
`this.evaluate(block)` instead of `thenBlock`/`elseBlock`), so every
invocation throws `ReferenceError('block is not defined')` — for a true and
for a false condition alike — and never evaluates either branch. -/
theorem claim4_ifelse_always_reference_error :
    (∀ fuel : ℕ, ∀ args : List Value, ∀ s : S,
       nativeCall (fuel + 1) .ifelseTag args s = (.error (.refErr "block is not defined"), s))
  ∧ (execute 100 "ifelse true [testcmd 1] [testcmd 2]" initS).1
      = .error (.refErr "block is not defined")
  ∧ (execute 100 "ifelse false [testcmd 1] [testcmd 2]" initS).1
      = .error (.refErr "block is not defined") := by
  exact ⟨fun _ _ _ => rfl, by with_unfolding_all rfl, by with_unfolding_all rfl⟩

/-- Claim 5 (code bug): `stop` and `output` at the top level do not raise
any error.  They set the shared global Context's `stop` flag (and, for
`output`, its output value); `evaluate`'s driver loop then simply stops and
returns `undefined`, and `execute` completes as success — where the spec
and the repository's tests (`should not allow stop at toplevel`) require a
structural `SyntaxError`. -/
theorem claim5_toplevel_output_stop_succeed :
    (execute 100 "output 42" initS).1 = .ok ()
  ∧ (execute 100 "output 42" initS).2.ctxStack = [⟨some (.num 42), true⟩]
  ∧ (execute 100 "stop" initS).1 = .ok ()
  ∧ (execute 100 "stop" initS).2.ctxStack = [⟨none, true⟩] := by
  refine ⟨?_, ?_, ?_, ?_⟩ <;> with_unfolding_all rfl

/-- Claim 6 (confirmed): for the arity-1 native test command bound by the
harness, `testcmd` with no argument fails while gathering
(`End of input expecting fixed arg`, a structural SyntaxError); `testcmd 1`
succeeds; the parenthesized `(testcmd 1 2)` with an extra argument
succeeds (variadic form accepts extras); the unparenthesized `testcmd 1 2`
leaves `2` as a leftover top-level value, which `execute` rejects as the
structural `Unhandled output value` SyntaxError. -/
theorem claim6_arity_one_native_call_forms :
    (execute 100 "testcmd" initS).1 = .error (.syntaxErr "End of input expecting fixed arg")
  ∧ (execute 100 "testcmd 1" initS).1 = .ok ()
  ∧ (execute 100 "(testcmd 1 2)" initS).1 = .ok ()
  ∧ (execute 100 "testcmd 1 2" initS).1 = .error (.syntaxErr "Unhandled output value") := by
  refine ⟨?_, ?_, ?_, ?_⟩ <;> with_unfolding_all rfl

/-- The failure is a usage error: the plain `Error` class used by the
interpreter-level precondition checks (as opposed to the Syntax/Type/
Reference errors of the Logo run, or success). -/
def isUsageError : Except Err Unit → Bool
  | .error (.plainErr _) => true
  | _ => false

/-- Claim 7 (confirmed): `pause()` fails with a usage error exactly when
not (running and not paused); `continue()` fails with a usage error exactly
when not (running and paused); `break()` fails with a usage error exactly
when not (running and break not already requested).  (When the
preconditions hold, the call is not a usage error: it either succeeds or —
for `continue` with no registered continuation — surfaces as a `TypeError`,
a host-side fault, not a precondition violation.) -/
theorem claim7_pause_continue_break_preconditions (s : S) :
    (isUsageError (pauseI s).1 = true ↔ ¬(s.running = true ∧ s.paused = false))
  ∧ (isUsageError (continueI s).1 = true ↔ ¬(s.running = true ∧ s.paused = true))
  ∧ (isUsageError (breakI s).1 = true ↔ ¬(s.running = true ∧ s.breakFlag = false)) := by
  cases hr : s.running <;> cases hp : s.paused <;> cases hb : s.breakFlag <;>
    cases hc : s.oncontinue <;>
      simp [pauseI, continueI, breakI, isUsageError, hr, hp, hb, hc]

/-- Witness for claim 7: a fresh interpreter is not running, so `pause()`
on it is a usage error. -/
theorem claim7_pause_continue_break_preconditions_witness :
    isUsageError (pauseI initS).1 = true :=
  (claim7_pause_continue_break_preconditions initS).1.mpr (by with_unfolding_all decide)

/-- Claim 8 (confirmed): calling a user-defined procedure pushes exactly
one new scope (a fresh frame whose id is the next heap slot) and one fresh
Context before the body evaluates; on every exit path — the body returning
normally or raising an error — both are popped again, so the scope and
context stacks return to their prior depth (by the depth invariant of the
whole evaluator); and on normal return the call's result is the `output`
field of the Context that was on top when the body finished (the popped
one), not the body's own evaluation result. -/
theorem claim8_activation_discipline (fuel : ℕ) (params : List String) (body : Value)
    (parent : ℕ) (args : List Value) (s : S) :
    ((pushActivation params parent args s).scopeStack = s.heap.length :: s.scopeStack
      ∧ (pushActivation params parent args s).ctxStack = ⟨none, false⟩ :: s.ctxStack)
  ∧ (callDefined (fuel + 1) params body parent args s).2.scopeStack.length
      = s.scopeStack.length
  ∧ (callDefined (fuel + 1) params body parent args s).2.ctxStack.length
      = s.ctxStack.length
  ∧ (∀ v, (callDefined (fuel + 1) params body parent args s).1 = .ok v →
       v = ((evalLoop fuel body none (pushActivation params parent args s)).2.ctxStack.headD
              ⟨none, false⟩).output) := by
  have hd := ((depth_invariant (fuel + 1)).2.2.2.2.2.2.2.2.2) params body parent args s
  simp only [depthOf, Prod.mk.injEq] at hd
  refine ⟨⟨rfl, rfl⟩, hd.1, hd.2, ?_⟩
  intro v hv
  rw [callDefined_succ] at hv
  split at hv
  · rename_i s2 heq
    rw [heq]
    injection hv with h
    exact h.symm
  · exact absurd hv (by simp)

/-- Witness for claim 8: a parameterless procedure whose body is
`output 7`, called on the fresh interpreter: the call returns the popped
Context's output (7) and both stack depths are restored. -/
theorem claim8_activation_discipline_witness :
    (callDefined 51 [] (Value.ofList [.str "output", .num 7]) 0 [] initS).2.scopeStack.length
      = initS.scopeStack.length
  ∧ (callDefined 51 [] (Value.ofList [.str "output", .num 7]) 0 [] initS).1
      = .ok (some (.num 7))
  ∧ some (Value.num 7)
      = ((evalLoop 50 (Value.ofList [.str "output", .num 7]) none
           (pushActivation [] 0 [] initS)).2.ctxStack.headD ⟨none, false⟩).output :=
  ⟨(claim8_activation_discipline 50 [] (Value.ofList [.str "output", .num 7]) 0 [] initS).2.1,
   by with_unfolding_all rfl,
   (claim8_activation_discipline 50 [] (Value.ofList [.str "output", .num 7]) 0 [] initS).2.2.2
     (some (.num 7)) (by with_unfolding_all rfl)⟩

/-- Claim 9 (amended): `List.equal` is reflexive and symmetric; two
independently constructed lists whose elements compare equal pairwise in
the same order compare equal; and on lists of atoms (no list elements)
equality is exactly structural identity, so different lengths or a
differing element mean unequal.  The unrestricted different-length clause
of the original claim is false — see the counterexample — because the
canonical empty list's `head` and `tail` are itself, making `[]` compare
equal to `[[]]`. -/
theorem claim9_list_equal_amended :
    (∀ a : Value, a.lequal a = true)
  ∧ (∀ a b : Value, a.lequal b = b.lequal a)
  ∧ (∀ xs ys : List Value,
       List.Forall₂ (fun x y => x.lequal y = true) xs ys →
       (Value.ofList xs).lequal (Value.ofList ys) = true)
  ∧ (∀ a b : Value, a.flatList = true → b.flatList = true →
       (a.lequal b = true ↔ a = b)) :=
  ⟨Value.lequal_refl, Value.lequal_symm, Value.lequal_of_forall2, Value.lequal_flat⟩

/-- Claim 9 counterexample: the empty list and the one-element list
containing the empty list compare equal under `List.equal`, although their
lengths (0 and 1) differ — refuting "lists of different length compare
unequal" as stated. -/
theorem claim9_list_equal_counterexample :
    Value.lequal .nil (.cons .nil .nil) = true
  ∧ Value.llength .nil = 0
  ∧ Value.llength (.cons .nil .nil) = 1 := by
  refine ⟨?_, rfl, rfl⟩
  rw [Value.lequal_nil_cons, Value.lequal_refl]
  rfl

/-- Witness for claim 9: the pairwise-equality and flat-list conjuncts at
concrete lists. -/
theorem claim9_list_equal_amended_witness :
    ((Value.ofList [Value.num 3, Value.str "x"]).lequal
       (Value.ofList [Value.num 3, Value.str "x"]) = true)
  ∧ ((Value.ofList [Value.num 3]).lequal (Value.ofList [Value.num 4]) = true
       ↔ Value.ofList [Value.num 3] = Value.ofList [Value.num 4]) :=
  ⟨claim9_list_equal_amended.2.2.1 _ _
     (List.Forall₂.cons (Value.lequal_refl _)
       (List.Forall₂.cons (Value.lequal_refl _) List.Forall₂.nil)),
   claim9_list_equal_amended.2.2.2 _ _ (by decide) (by decide)⟩

/-- Claim 10 (confirmed): a top-level `stop` leaves the interpreter with
the shared global Context's stop flag set and everything else as before
(`execute`'s finally clears only `breakFlag` and `running`); and from any
state whose current (global) context has `stop` set, any `execute` whose
source tokenizes and parses evaluates none of its instructions: it returns
success with the state unchanged apart from the flag cleanup. -/
theorem claim10_toplevel_stop_poisons_interpreter :
    ((execute 100 "stop" initS).1 = .ok ()
      ∧ (execute 100 "stop" initS).2 = { initS with ctxStack := [⟨none, true⟩] })
  ∧ (∀ fuel : ℕ, ∀ src : String, ∀ s : S, ∀ prog c rest,
       s.running = false →
       s.ctxStack = c :: rest →
       c.stop = true →
       (tokenizeJS src).bind parseJS = .ok prog →
       execute (fuel + 1) src s = (.ok (), { s with breakFlag := false, running := false })) := by
  refine ⟨⟨by with_unfolding_all rfl, by with_unfolding_all rfl⟩, ?_⟩
  intro fuel src s prog c rest hrun hctx hstop hparse
  obtain ⟨toks, htok, hp⟩ : ∃ toks, tokenizeJS src = .ok toks ∧ parseJS toks = .ok prog := by
    cases htk : tokenizeJS src with
    | error e => rw [htk] at hparse; simp [Except.bind] at hparse
    | ok toks =>
      rw [htk] at hparse
      simp only [Except.bind] at hparse
      exact ⟨toks, rfl, hparse⟩
  have heval : evaluate (fuel + 1) prog { s with running := true } =
      (.ok none, { s with running := true }) := by
    unfold evaluate
    rw [evalLoop_succ]
    simp [hctx, hstop]
  unfold execute
  simp only [hrun, Bool.false_eq_true, if_false, htok, hp, heval]

/-- Witness for claim 10: after `stop` has run at the top level, executing
`testout 1` does nothing — it succeeds without recording anything. -/
theorem claim10_toplevel_stop_poisons_interpreter_witness :
    execute 100 "testout 1" ((execute 100 "stop" initS).2)
      = (.ok (), { ((execute 100 "stop" initS).2) with breakFlag := false, running := false }) :=
  claim10_toplevel_stop_poisons_interpreter.2 99 "testout 1" ((execute 100 "stop" initS).2)
    (Value.ofList [.str "testout", .num 1]) ⟨none, true⟩ []
    (by with_unfolding_all rfl) (by with_unfolding_all rfl) rfl
    (by with_unfolding_all rfl)
